import Mathlib

/-!
Verification of the payment-engine ledger-replay core.

The Rust source (`src/lib.rs`, `src/account/mod.rs`, `src/transaction/mod.rs`)
is shallowly embedded below:

* `u16` client ids and `u32` transaction ids are modelled as `Nat` — the code
  only ever compares them for equality, never does arithmetic on them, so the
  wrap-around behaviour of the machine width is irrelevant to every claim;
* `f64` monetary amounts are modelled as exact rationals (`Rat`); the claims
  under audit concern the update algebra of the engine, not binary rounding;
* the two `HashMap`s are modelled as functions `Nat → Option _` with explicit
  insert/remove; `Vec` push is list append;
* the `Mutex`es only serialize a single writer against snapshot readers and
  carry no semantics in the sequential model;
* Rust methods that mutate `&mut self` and return `bool` become functions
  returning the updated value paired with the `bool`.
-/

-- Rational addition and subtraction are `@[irreducible]` upstream; the
-- concrete balance computations below are closed by kernel reduction, which
-- needs them unfolded.
unseal Rat.add Rat.sub

namespace PaymentEngine

/-- `HashMap::insert k v` on the functional map model. -/
def mapInsert {α : Type} (m : Nat → Option α) (k : Nat) (v : α) : Nat → Option α :=
  fun i => if i = k then some v else m i

/-- `HashMap::remove k` on the functional map model. -/
def mapRemove {α : Type} (m : Nat → Option α) (k : Nat) : Nat → Option α :=
  fun i => if i = k then none else m i

@[simp] theorem mapInsert_same {α : Type} (m : Nat → Option α) (k : Nat) (v : α) :
    mapInsert m k v k = some v := by simp [mapInsert]

@[simp] theorem mapInsert_other {α : Type} (m : Nat → Option α) (k i : Nat) (v : α)
    (h : i ≠ k) : mapInsert m k v i = m i := by simp [mapInsert, h]

@[simp] theorem mapRemove_same {α : Type} (m : Nat → Option α) (k : Nat) :
    mapRemove m k k = none := by simp [mapRemove]

@[simp] theorem mapRemove_other {α : Type} (m : Nat → Option α) (k i : Nat)
    (h : i ≠ k) : mapRemove m k i = m i := by simp [mapRemove, h]

theorem mapInsert_mapRemove_cancel {α : Type} (m : Nat → Option α) (k : Nat) (v : α)
    (h : m k = some v) : mapInsert (mapRemove m k) k v = m := by
  funext i
  by_cases hi : i = k <;> simp [mapInsert, mapRemove, hi, h.symm]

theorem mapInsert_self {α : Type} (m : Nat → Option α) (k : Nat) (v : α)
    (h : m k = some v) : mapInsert m k v = m := by
  funext i
  by_cases hi : i = k <;> simp [mapInsert, hi, h.symm]

/-- `enum Transaction` from `src/transaction/mod.rs` (the `Reslove` spelling is
the source's). -/
inductive Transaction : Type where
  | Deposit (client_id : Nat) (transaction_id : Nat) (amount : Rat)
  | Withdrawal (client_id : Nat) (transaction_id : Nat) (amount : Rat)
  | DisputedDeposit (client_id : Nat) (transaction_id : Nat) (amount : Rat)
  | DisputedWithdrawal (client_id : Nat) (transaction_id : Nat) (amount : Rat)
  | Dispute (client_id : Nat) (transaction_id : Nat)
  | Reslove (client_id : Nat) (transaction_id : Nat)
  | Chargeback (client_id : Nat) (transaction_id : Nat)
deriving DecidableEq, Repr

namespace Transaction

/-- `Transaction::make_disputed_transaction`. -/
def make_disputed_transaction : Transaction → Except Transaction (Transaction × Rat)
  | Deposit client_id transaction_id amount =>
      .ok (DisputedDeposit client_id transaction_id amount, amount)
  | Withdrawal client_id transaction_id amount =>
      .ok (DisputedWithdrawal client_id transaction_id amount, amount)
  | t => .error t

/-- `Transaction::get_disputed_transaction`. -/
def get_disputed_transaction : Transaction → Except Transaction (Transaction × Rat)
  | DisputedDeposit client_id transaction_id amount =>
      .ok (Deposit client_id transaction_id amount, amount)
  | DisputedWithdrawal client_id transaction_id amount =>
      .ok (Withdrawal client_id transaction_id amount, amount)
  | t => .error t

/-- `Transaction::is_disputed`. -/
def is_disputed : Transaction → Bool
  | DisputedDeposit _ _ _ => true
  | DisputedWithdrawal _ _ _ => true
  | _ => false

/-- `Transaction::is_non_refering`. -/
def is_non_refering : Transaction → Bool
  | Deposit _ _ _ => true
  | Withdrawal _ _ _ => true
  | _ => false

/-- `Transaction::client_id`. -/
def client_id : Transaction → Nat
  | Deposit c _ _ => c
  | Withdrawal c _ _ => c
  | DisputedDeposit c _ _ => c
  | DisputedWithdrawal c _ _ => c
  | Dispute c _ => c
  | Reslove c _ => c
  | Chargeback c _ => c

end Transaction

/-- `struct Client` from `src/account/mod.rs`. -/
structure Client : Type where
  id : Nat
  available : Rat
  held : Rat
  locked : Bool
deriving DecidableEq, Repr

namespace Client

/-- `Client::new`. -/
def new (id : Nat) : Client := { id := id, available := 0, held := 0, locked := false }

/-- `Client::set_locked`. -/
def set_locked (self : Client) (locked : Bool) : Client := { self with locked := locked }

/-- `Client::is_locked`. -/
def is_locked (self : Client) : Bool := self.locked

/-- `Client::apply_transaction`; returns the mutated client together with the
`bool` result.  In the `Deposit` arm the Rust pattern rebinds `amount` to the
transaction's own field, shadowing the parameter; in every other arm the
caller-supplied `amount` is used.  The `Reslove` arm transcribes the source
faithfully: `self.available += amount; self.held += amount`. -/
def apply_transaction (self : Client) (t : Transaction) (amount : Rat) : Client × Bool :=
  if self.locked then
    (self, false)
  else
    match t with
    | .Deposit _ _ a => ({ self with available := self.available + a }, true)
    | .Withdrawal _ _ _ =>
        if self.available ≥ amount then
          ({ self with available := self.available - amount }, true)
        else
          (self, false)
    | .Dispute _ _ =>
        ({ self with available := self.available - amount, held := self.held + amount }, true)
    | .Reslove _ _ =>
        ({ self with available := self.available + amount, held := self.held + amount }, true)
    | .Chargeback _ _ =>
        (({ self with available := self.available - amount,
                      held := self.held - amount } : Client).set_locked true, true)
    | .DisputedDeposit _ _ _ => (self, false)
    | .DisputedWithdrawal _ _ _ => (self, false)

end Client

/-- `struct InMemoryTransactionEngine`: the live transaction store, the client
accounts, the blocked-transaction audit list, the finalized-transaction
history. -/
structure InMemoryTransactionEngine : Type where
  tranasctions : Nat → Option Transaction
  clients : Nat → Option Client
  blocked_transactions : List Transaction
  finalized_transactions : List Transaction

namespace InMemoryTransactionEngine

/-- `InMemoryTransactionEngine::new`. -/
def new : InMemoryTransactionEngine :=
  { tranasctions := fun _ => none
    clients := fun _ => none
    blocked_transactions := []
    finalized_transactions := [] }

/-- The early lock check at the top of `add_transaction`:
`clients.get(&id)` followed by `is_locked`, `false` when no account exists. -/
def client_locked (self : InMemoryTransactionEngine) (cid : Nat) : Bool :=
  match self.clients cid with
  | some client => client.is_locked
  | none => false

/-- `InMemoryTransactionEngine::add_transaction` (the `TransactionEngine`
impl in `src/lib.rs`), returning the updated engine and the `bool` result. -/
def add_transaction (self : InMemoryTransactionEngine) (transaction_to_add : Transaction) :
    InMemoryTransactionEngine × Bool :=
  if self.client_locked transaction_to_add.client_id then
    ({ self with blocked_transactions := self.blocked_transactions ++ [transaction_to_add] },
     false)
  else
    match transaction_to_add with
    | .Deposit client_id transaction_id amount
    | .Withdrawal client_id transaction_id amount =>
        let applied :=
          match self.clients client_id with
          | some existing_client => existing_client.apply_transaction transaction_to_add amount
          | none => (Client.new client_id).apply_transaction transaction_to_add amount
        if applied.2 then
          ({ self with
              clients := mapInsert self.clients client_id applied.1
              tranasctions := mapInsert self.tranasctions transaction_id transaction_to_add },
           true)
        else
          ({ self with clients := mapInsert self.clients client_id applied.1 }, false)
    | .Dispute client_id transaction_id =>
        match self.clients client_id with
        | some client =>
            match self.tranasctions transaction_id with
            | some existing_transaction =>
                match existing_transaction.make_disputed_transaction with
                | .ok (disputed_transaction, amount) =>
                    ({ self with
                        clients := mapInsert self.clients client_id
                          (client.apply_transaction transaction_to_add amount).1
                        tranasctions :=
                          mapInsert (mapRemove self.tranasctions transaction_id)
                            transaction_id disputed_transaction },
                     true)
                | .error transaction =>
                    ({ self with
                        tranasctions :=
                          mapInsert (mapRemove self.tranasctions transaction_id)
                            transaction_id transaction },
                     true)
            | none => (self, false)
        | none => (self, false)
    | .Reslove client_id transaction_id
    | .Chargeback client_id transaction_id =>
        match self.clients client_id with
        | some client =>
            match self.tranasctions transaction_id with
            | some existing_transaction =>
                if existing_transaction.is_disputed then
                  match existing_transaction.get_disputed_transaction with
                  | .ok (disputed_transaction, amount) =>
                      ({ self with
                          clients := mapInsert self.clients client_id
                            (client.apply_transaction transaction_to_add amount).1
                          tranasctions := mapRemove self.tranasctions transaction_id
                          finalized_transactions :=
                            self.finalized_transactions ++ [disputed_transaction] },
                       true)
                  | .error _ =>
                      ({ self with
                          tranasctions := mapRemove self.tranasctions transaction_id },
                       true)
                else
                  ({ self with
                      tranasctions :=
                        mapInsert (mapRemove self.tranasctions transaction_id)
                          transaction_id existing_transaction },
                   false)
            | none => (self, false)
        | none => (self, false)
    | .DisputedDeposit _ _ _ => (self, false)
    | .DisputedWithdrawal _ _ _ => (self, false)

/-- `InMemoryTransactionEngine::snap_shot_clients`: the Rust returns the
collection of all current `Client` values (in unspecified `HashMap` order);
order being irrelevant, the snapshot is modelled as the indexed family of
account views. -/
def snap_shot_clients (self : InMemoryTransactionEngine) : Nat → Option Client :=
  self.clients

/-- The external driver loop (`main.rs`): feed a list of records one at a
time, in order, discarding the per-record `bool`. -/
def run (self : InMemoryTransactionEngine) (l : List Transaction) :
    InMemoryTransactionEngine :=
  l.foldl (fun e t => (e.add_transaction t).1) self

end InMemoryTransactionEngine

-- sanity checks against the repository's own tests
example :
    ((InMemoryTransactionEngine.new.run
      [Transaction.Deposit 1 1 1]).add_transaction (Transaction.Reslove 1 1)).2 = false := by
  decide

example :
    ((InMemoryTransactionEngine.new.run
      [Transaction.Deposit 1 1 1, Transaction.Dispute 1 1]).add_transaction
        (Transaction.Reslove 1 1)).2 = true := by
  decide

example :
    ((InMemoryTransactionEngine.new.run
      [Transaction.Deposit 1 1 1, Transaction.Dispute 1 1,
       Transaction.Chargeback 1 1]).add_transaction (Transaction.Deposit 1 2 1)).2 = false := by
  decide

/-! ### Helper lemmas about `add_transaction` -/

namespace InMemoryTransactionEngine

theorem client_locked_eq_false (e : InMemoryTransactionEngine) (cid : Nat) (c : Client)
    (h1 : e.clients cid = some c) (h2 : c.locked = false) :
    e.client_locked cid = false := by
  simp [client_locked, h1, Client.is_locked, h2]

theorem client_locked_eq_true (e : InMemoryTransactionEngine) (cid : Nat) (c : Client)
    (h1 : e.clients cid = some c) (h2 : c.locked = true) :
    e.client_locked cid = true := by
  simp [client_locked, h1, Client.is_locked, h2]

theorem client_locked_none (e : InMemoryTransactionEngine) (cid : Nat)
    (h1 : e.clients cid = none) : e.client_locked cid = false := by
  simp [client_locked, h1]

end InMemoryTransactionEngine

/-- C7: an accepted Dispute on a live primary of stored amount `A` moves `A`
from `available` to `held` (no sufficiency check) and rewrites the stored
entry in place into its disputed form carrying the same `A`. -/
theorem c7_dispute_effect (e : InMemoryTransactionEngine) (cid tid : Nat) (c : Client)
    (w d : Transaction) (A : Rat)
    (h1 : e.clients cid = some c) (h2 : c.locked = false)
    (h3 : e.tranasctions tid = some w)
    (h4 : w.make_disputed_transaction = .ok (d, A)) :
    (e.add_transaction (.Dispute cid tid)).2 = true ∧
    (e.add_transaction (.Dispute cid tid)).1.clients cid =
      some { c with available := c.available - A, held := c.held + A } ∧
    (e.add_transaction (.Dispute cid tid)).1.tranasctions tid = some d ∧
    (∀ j, j ≠ tid →
      (e.add_transaction (.Dispute cid tid)).1.tranasctions j = e.tranasctions j) := by
  simp only [InMemoryTransactionEngine.add_transaction, Transaction.client_id,
    e.client_locked_eq_false cid c h1 h2, Bool.false_eq_true, if_false, h1, h3, h4,
    Client.apply_transaction, h2]
  refine ⟨by simp, by simp, by simp, fun j hj => by simp [hj]⟩

theorem make_disputed_of_disputed (w : Transaction) (h : w.is_disputed = true) :
    w.make_disputed_transaction = .error w := by
  cases w <;> first
    | rfl
    | simp [Transaction.is_disputed] at h

/-- C7 witness at a concrete reachable state: deposit of 3 for client 1,
then a dispute. -/
theorem c7_dispute_effect_witness :
    ((InMemoryTransactionEngine.new.run [Transaction.Deposit 1 5 3]).add_transaction
        (Transaction.Dispute 1 5)).2 = true ∧
    ((InMemoryTransactionEngine.new.run [Transaction.Deposit 1 5 3]).add_transaction
        (Transaction.Dispute 1 5)).1.clients 1 =
      some { id := 1, available := 0, held := 3, locked := false } ∧
    ((InMemoryTransactionEngine.new.run [Transaction.Deposit 1 5 3]).add_transaction
        (Transaction.Dispute 1 5)).1.tranasctions 5 =
      some (Transaction.DisputedDeposit 1 5 3) := by
  have h := c7_dispute_effect (InMemoryTransactionEngine.new.run [Transaction.Deposit 1 5 3])
    1 5 { id := 1, available := 3, held := 0, locked := false }
    (Transaction.Deposit 1 5 3) (Transaction.DisputedDeposit 1 5 3) 3
    (by decide) (by decide) (by decide) (by rfl)
  refine ⟨h.1, ?_, h.2.2.1⟩
  rw [h.2.1]
  decide

/-- C1: the claim (and the spec) say the Resolve effect is
`available += A; held -= A`; the code's `Reslove` arm instead performs
`available += A; held += A`.  Evaluated at the failing input
deposit(1,1,1.0); dispute(1,1); resolve(1,1): the account ends with
`held = 2`, not `held = 0`. -/
theorem c1_resolve_effect_on_code :
    (InMemoryTransactionEngine.new.run
      [Transaction.Deposit 1 1 1, Transaction.Dispute 1 1,
       Transaction.Reslove 1 1]).clients 1 =
      some { id := 1, available := 1, held := 2, locked := false } := by
  decide

/-- C3: the Dispute-then-Resolve round trip does not restore `held` on the
code: pre-dispute the account is (available 5, held 0); after dispute(2,7)
and resolve(2,7) it is (available 5, held 10) — `available` is restored but
`held` has grown by twice the amount. -/
theorem c3_dispute_resolve_roundtrip_on_code :
    (InMemoryTransactionEngine.new.run
        [Transaction.Deposit 2 7 5]).clients 2 =
      some { id := 2, available := 5, held := 0, locked := false } ∧
    (InMemoryTransactionEngine.new.run
        [Transaction.Deposit 2 7 5, Transaction.Dispute 2 7,
         Transaction.Reslove 2 7]).clients 2 =
      some { id := 2, available := 5, held := 10, locked := false } := by
  decide

/-- C2 counterexample: with transaction 1 already in disputed form (after
deposit(1,1,1.0) and dispute(1,1)), a second dispute(1,1) makes
`add_transaction` return `true`, not `false` as the claim states. -/
theorem c2_redispute_counterexample :
    ((InMemoryTransactionEngine.new.run
      [Transaction.Deposit 1 1 1, Transaction.Dispute 1 1]).add_transaction
        (Transaction.Dispute 1 1)).2 = true := by
  decide

/-- C2 amended: re-disputing an already-disputed id (client present and
unlocked) puts the stored record back into the live store unchanged and
leaves every account unchanged, but `add_transaction` returns `true`. -/
theorem c2_redispute_amended (e : InMemoryTransactionEngine) (cid tid : Nat)
    (c : Client) (w : Transaction)
    (h1 : e.clients cid = some c) (h2 : c.locked = false)
    (h3 : e.tranasctions tid = some w) (h4 : w.is_disputed = true) :
    (e.add_transaction (.Dispute cid tid)).2 = true ∧
    (e.add_transaction (.Dispute cid tid)).1.tranasctions = e.tranasctions ∧
    (e.add_transaction (.Dispute cid tid)).1.clients = e.clients := by
  simp only [InMemoryTransactionEngine.add_transaction, Transaction.client_id,
    e.client_locked_eq_false cid c h1 h2, Bool.false_eq_true, if_false, h1, h3,
    make_disputed_of_disputed w h4]
  exact ⟨trivial, mapInsert_mapRemove_cancel _ _ _ h3, trivial⟩

/-- C2 witness for the amended statement, at the same concrete state as the
counterexample. -/
theorem c2_redispute_amended_witness :
    ((InMemoryTransactionEngine.new.run
      [Transaction.Deposit 1 1 1, Transaction.Dispute 1 1]).add_transaction
        (Transaction.Dispute 1 1)).2 = true ∧
    ((InMemoryTransactionEngine.new.run
      [Transaction.Deposit 1 1 1, Transaction.Dispute 1 1]).add_transaction
        (Transaction.Dispute 1 1)).1.tranasctions =
      (InMemoryTransactionEngine.new.run
        [Transaction.Deposit 1 1 1, Transaction.Dispute 1 1]).tranasctions ∧
    ((InMemoryTransactionEngine.new.run
      [Transaction.Deposit 1 1 1, Transaction.Dispute 1 1]).add_transaction
        (Transaction.Dispute 1 1)).1.clients =
      (InMemoryTransactionEngine.new.run
        [Transaction.Deposit 1 1 1, Transaction.Dispute 1 1]).clients :=
  c2_redispute_amended _ 1 1 { id := 1, available := 0, held := 1, locked := false }
    (Transaction.DisputedDeposit 1 1 1) (by decide) (by decide) (by decide) (by decide)

/-- C4 counterexample: Scenario B on the code ends with `available = -1`
(the chargeback arm subtracts the amount from `available` as well as from
`held`), not `available = 0` as the claim states. -/
theorem c4_scenarioB_counterexample :
    (InMemoryTransactionEngine.new.run
      [Transaction.Deposit 1 1 1, Transaction.Dispute 1 1,
       Transaction.Chargeback 1 1]).snap_shot_clients 1 =
      some { id := 1, available := -1, held := 0, locked := true } ∧
    ¬ ((-1 : Rat) = 0) := by
  decide

/-- C4 amended: after deposit(1,1,1.0), dispute(1,1), chargeback(1,1) the
snapshot for client 1 shows available = -1, held = 0, total = -1,
locked = true, and the subsequent deposit(1,2,1.0) is rejected. -/
theorem c4_scenarioB_amended :
    ((InMemoryTransactionEngine.new.run
      [Transaction.Deposit 1 1 1, Transaction.Dispute 1 1,
       Transaction.Chargeback 1 1]).snap_shot_clients 1 =
        some { id := 1, available := -1, held := 0, locked := true }) ∧
    ((-1 : Rat) + 0 = -1) ∧
    (((InMemoryTransactionEngine.new.run
      [Transaction.Deposit 1 1 1, Transaction.Dispute 1 1,
       Transaction.Chargeback 1 1]).add_transaction (Transaction.Deposit 1 2 1)).2 = false) := by
  decide

/-- C5: on an existing unlocked account, a Withdrawal is accepted iff its
amount is at most the current `available`; when rejected, every account and
the live store are unchanged. -/
theorem c5_withdrawal_iff (e : InMemoryTransactionEngine) (cid tid : Nat) (A : Rat)
    (c : Client) (h1 : e.clients cid = some c) (h2 : c.locked = false) :
    ((e.add_transaction (.Withdrawal cid tid A)).2 = true ↔ A ≤ c.available) ∧
    ((e.add_transaction (.Withdrawal cid tid A)).2 = false →
      (e.add_transaction (.Withdrawal cid tid A)).1.clients = e.clients ∧
      (e.add_transaction (.Withdrawal cid tid A)).1.tranasctions = e.tranasctions) := by
  have happ : c.apply_transaction (Transaction.Withdrawal cid tid A) A =
      if c.available ≥ A then ({ c with available := c.available - A }, true)
      else (c, false) := by
    simp [Client.apply_transaction, h2]
  simp only [InMemoryTransactionEngine.add_transaction, Transaction.client_id,
    e.client_locked_eq_false cid c h1 h2, Bool.false_eq_true, if_false, h1, happ]
  by_cases hA : c.available ≥ A
  · simp [hA, ge_iff_le]
  · simp only [hA, if_false]
    refine ⟨by simp [ge_iff_le] at hA ⊢; try exact hA, fun _ => ⟨mapInsert_self _ _ _ h1, rfl⟩⟩

/-- C5 witness: client 3 has 2 available after a deposit of 2; a withdrawal
of 5 is rejected and changes nothing. -/
theorem c5_withdrawal_iff_witness :
    (((InMemoryTransactionEngine.new.run [Transaction.Deposit 3 9 2]).add_transaction
        (Transaction.Withdrawal 3 10 5)).2 = true ↔ (5 : Rat) ≤ 2) ∧
    (((InMemoryTransactionEngine.new.run [Transaction.Deposit 3 9 2]).add_transaction
        (Transaction.Withdrawal 3 10 5)).2 = false →
      ((InMemoryTransactionEngine.new.run [Transaction.Deposit 3 9 2]).add_transaction
          (Transaction.Withdrawal 3 10 5)).1.clients =
        (InMemoryTransactionEngine.new.run [Transaction.Deposit 3 9 2]).clients ∧
      ((InMemoryTransactionEngine.new.run [Transaction.Deposit 3 9 2]).add_transaction
          (Transaction.Withdrawal 3 10 5)).1.tranasctions =
        (InMemoryTransactionEngine.new.run [Transaction.Deposit 3 9 2]).tranasctions) :=
  c5_withdrawal_iff _ 3 10 5 { id := 3, available := 2, held := 0, locked := false }
    (by decide) (by decide)

namespace InMemoryTransactionEngine

/-- `add_transaction` only ever touches the account entry of the record's own
`client_id`. -/
theorem add_clients_other (e : InMemoryTransactionEngine) (t : Transaction) (cid : Nat)
    (h : t.client_id ≠ cid) :
    (e.add_transaction t).1.clients cid = e.clients cid := by
  cases t <;>
    simp only [Transaction.client_id] at h <;>
    simp only [add_transaction, Transaction.client_id] <;>
    (repeat' split) <;>
    simp [mapInsert, Ne.symm h]

/-- `add_transaction` never deletes an account entry. -/
theorem add_clients_isSome (e : InMemoryTransactionEngine) (t : Transaction) (cid : Nat)
    (h : (e.clients cid).isSome) :
    ((e.add_transaction t).1.clients cid).isSome := by
  by_cases hc : t.client_id = cid
  · subst hc
    unfold add_transaction
    cases t <;>
      simp only [Transaction.client_id] at * <;>
      (repeat' split) <;>
      simp_all [mapInsert]
  · rw [e.add_clients_other t cid hc]
    exact h

/-- A locked account entry is preserved verbatim by every further record. -/
theorem add_locked_preserved (e : InMemoryTransactionEngine) (t : Transaction)
    (cid : Nat) (c : Client) (h1 : e.clients cid = some c) (h2 : c.locked = true) :
    (e.add_transaction t).1.clients cid = some c := by
  by_cases hc : t.client_id = cid
  · unfold add_transaction
    rw [hc, client_locked_eq_true e cid c h1 h2]
    simpa using h1
  · rw [e.add_clients_other t cid hc]
    exact h1

/-- A record addressed to a locked account is pushed to the blocked list and
rejected; neither the accounts nor the live store change. -/
theorem add_locked_rejects (e : InMemoryTransactionEngine) (t : Transaction) (c : Client)
    (h1 : e.clients t.client_id = some c) (h2 : c.locked = true) :
    (e.add_transaction t).2 = false ∧
    (e.add_transaction t).1.clients = e.clients ∧
    (e.add_transaction t).1.tranasctions = e.tranasctions := by
  unfold add_transaction
  rw [client_locked_eq_true e t.client_id c h1 h2]
  simp

/-- `run` preserves a locked account entry verbatim. -/
theorem run_locked_preserved (l : List Transaction) (e : InMemoryTransactionEngine)
    (cid : Nat) (c : Client) (h1 : e.clients cid = some c) (h2 : c.locked = true) :
    (e.run l).clients cid = some c := by
  induction l generalizing e with
  | nil => exact h1
  | cons t l ih =>
      exact ih (e.add_transaction t).1 (e.add_locked_preserved t cid c h1 h2)

/-- `run` never deletes an account entry. -/
theorem run_clients_isSome (l : List Transaction) (e : InMemoryTransactionEngine)
    (cid : Nat) (h : (e.clients cid).isSome) :
    ((e.run l).clients cid).isSome := by
  induction l generalizing e with
  | nil => exact h
  | cons t l ih =>
      exact ih (e.add_transaction t).1 (e.add_clients_isSome t cid h)

end InMemoryTransactionEngine

/-- C6: an accepted Chargeback on a disputed record of amount `A` subtracts
`A` from both `available` and `held` and locks the account; afterwards, no
matter what records are processed in between, the locked entry persists
verbatim and every record addressed to that client is rejected with no
change to any account. -/
theorem c6_chargeback_locks (e : InMemoryTransactionEngine) (cid tid : Nat) (c : Client)
    (w u : Transaction) (A : Rat)
    (h1 : e.clients cid = some c) (h2 : c.locked = false)
    (h3 : e.tranasctions tid = some w) (h4 : w.is_disputed = true)
    (h5 : w.get_disputed_transaction = .ok (u, A)) :
    (e.add_transaction (.Chargeback cid tid)).2 = true ∧
    (e.add_transaction (.Chargeback cid tid)).1.clients cid =
      some { c with available := c.available - A, held := c.held - A, locked := true } ∧
    (∀ l, ((e.add_transaction (.Chargeback cid tid)).1.run l).clients cid =
      some { c with available := c.available - A, held := c.held - A, locked := true }) ∧
    (∀ l t', t'.client_id = cid →
      (((e.add_transaction (.Chargeback cid tid)).1.run l).add_transaction t').2 = false ∧
      (((e.add_transaction (.Chargeback cid tid)).1.run l).add_transaction t').1.clients =
        ((e.add_transaction (.Chargeback cid tid)).1.run l).clients) := by
  have hstep : e.add_transaction (Transaction.Chargeback cid tid) =
      ({ tranasctions := mapRemove e.tranasctions tid
         clients := mapInsert e.clients cid
           { c with available := c.available - A, held := c.held - A, locked := true }
         blocked_transactions := e.blocked_transactions
         finalized_transactions := e.finalized_transactions ++ [u] }, true) := by
    simp only [InMemoryTransactionEngine.add_transaction, Transaction.client_id,
      e.client_locked_eq_false cid c h1 h2, Bool.false_eq_true, if_false, h1, h3, h4,
      if_true, h5, Client.apply_transaction, h2, Client.set_locked]
  have hrun : ∀ l, ((e.add_transaction (.Chargeback cid tid)).1.run l).clients cid =
      some { c with available := c.available - A, held := c.held - A, locked := true } := by
    intro l
    apply InMemoryTransactionEngine.run_locked_preserved
    · rw [hstep]
      simp
    · rfl
  refine ⟨by rw [hstep], ?_, hrun, ?_⟩
  · rw [hstep]
    simp
  · intro l t' ht'
    have h := InMemoryTransactionEngine.add_locked_rejects
      ((e.add_transaction (.Chargeback cid tid)).1.run l) t'
      { c with available := c.available - A, held := c.held - A, locked := true }
      (by rw [ht']; exact hrun l) rfl
    exact ⟨h.1, h.2.1⟩

/-- C6 witness on Scenario B's prefix: deposit 1, dispute, then chargeback for
client 1; afterwards a deposit for client 1 is rejected with no account
change. -/
theorem c6_chargeback_locks_witness :
    ((InMemoryTransactionEngine.new.run
      [Transaction.Deposit 1 1 1, Transaction.Dispute 1 1]).add_transaction
        (Transaction.Chargeback 1 1)).2 = true ∧
    ((InMemoryTransactionEngine.new.run
      [Transaction.Deposit 1 1 1, Transaction.Dispute 1 1]).add_transaction
        (Transaction.Chargeback 1 1)).1.clients 1 =
      some { id := 1, available := -1, held := 0, locked := true } ∧
    (((((InMemoryTransactionEngine.new.run
      [Transaction.Deposit 1 1 1, Transaction.Dispute 1 1]).add_transaction
        (Transaction.Chargeback 1 1)).1.run []).add_transaction
          (Transaction.Deposit 1 2 1)).2 = false) := by
  have h := c6_chargeback_locks
    (InMemoryTransactionEngine.new.run [Transaction.Deposit 1 1 1, Transaction.Dispute 1 1])
    1 1 { id := 1, available := 0, held := 1, locked := false }
    (Transaction.DisputedDeposit 1 1 1) (Transaction.Deposit 1 1 1) 1
    (by decide) (by decide) (by decide) (by decide) (by rfl)
  refine ⟨h.1, ?_, (h.2.2.2 [] (Transaction.Deposit 1 2 1) rfl).1⟩
  rw [h.2.1]
  decide

/-- C8: a Resolve or Chargeback whose referenced transaction is live but not
in disputed form is rejected with the stored record left (restored) in the
live store; and every rejected Dispute/Resolve/Chargeback leaves all account
balances and the live store exactly as they were. -/
theorem c8_reject_restores (e : InMemoryTransactionEngine) (cid tid : Nat)
    (t : Transaction) :
    (∀ w, e.tranasctions tid = some w → w.is_disputed = false →
      (t = Transaction.Reslove cid tid ∨ t = Transaction.Chargeback cid tid) →
      (e.add_transaction t).2 = false ∧
      (e.add_transaction t).1.tranasctions = e.tranasctions) ∧
    ((t = Transaction.Dispute cid tid ∨ t = Transaction.Reslove cid tid ∨
        t = Transaction.Chargeback cid tid) →
      (e.add_transaction t).2 = false →
      (e.add_transaction t).1.clients = e.clients ∧
      (e.add_transaction t).1.tranasctions = e.tranasctions) := by
  constructor
  · rintro w hw hnd (rfl | rfl) <;>
    · simp only [InMemoryTransactionEngine.add_transaction, Transaction.client_id]
      by_cases hcl : e.client_locked cid
      · simp [hcl]
      · simp only [hcl, Bool.false_eq_true, if_false]
        cases hc : e.clients cid with
        | none => simp
        | some client =>
            rw [hw]
            simp [hnd, mapInsert_mapRemove_cancel _ _ _ hw]
  · rintro (rfl | rfl | rfl) hrej
    · -- Dispute: both make_disputed outcomes return true, so a rejection can
      -- only come from the untouched-state branches
      simp only [InMemoryTransactionEngine.add_transaction, Transaction.client_id] at hrej ⊢
      by_cases hcl : e.client_locked cid
      · simp [hcl]
      · simp only [hcl, Bool.false_eq_true, if_false] at hrej ⊢
        cases hc : e.clients cid with
        | none => simp
        | some client =>
            cases htx : e.tranasctions tid with
            | none => simp
            | some w =>
                rcases hmk : w.make_disputed_transaction with d | p <;>
                  simp [hc, htx, hmk] at hrej
    · simp only [InMemoryTransactionEngine.add_transaction, Transaction.client_id] at hrej ⊢
      by_cases hcl : e.client_locked cid
      · simp [hcl]
      · simp only [hcl, Bool.false_eq_true, if_false] at hrej ⊢
        cases hc : e.clients cid with
        | none => simp
        | some client =>
            cases htx : e.tranasctions tid with
            | none => simp
            | some w =>
                cases hd : w.is_disputed with
                | true =>
                    rcases hg : w.get_disputed_transaction with d | p <;>
                      simp [hc, htx, hd, hg] at hrej
                | false =>
                    simp only [hd, Bool.false_eq_true, if_false]
                    exact ⟨trivial, mapInsert_mapRemove_cancel _ _ _ htx⟩
    · simp only [InMemoryTransactionEngine.add_transaction, Transaction.client_id] at hrej ⊢
      by_cases hcl : e.client_locked cid
      · simp [hcl]
      · simp only [hcl, Bool.false_eq_true, if_false] at hrej ⊢
        cases hc : e.clients cid with
        | none => simp
        | some client =>
            cases htx : e.tranasctions tid with
            | none => simp
            | some w =>
                cases hd : w.is_disputed with
                | true =>
                    rcases hg : w.get_disputed_transaction with d | p <;>
                      simp [hc, htx, hd, hg] at hrej
                | false =>
                    simp only [hd, Bool.false_eq_true, if_false]
                    exact ⟨trivial, mapInsert_mapRemove_cancel _ _ _ htx⟩

/-- C8 witness: after a single deposit, a Resolve naming the (undisputed)
deposit is rejected, the live store is unchanged, and all accounts are
unchanged. -/
theorem c8_reject_restores_witness :
    ((InMemoryTransactionEngine.new.run [Transaction.Deposit 1 1 1]).add_transaction
        (Transaction.Reslove 1 1)).2 = false ∧
    ((InMemoryTransactionEngine.new.run [Transaction.Deposit 1 1 1]).add_transaction
        (Transaction.Reslove 1 1)).1.tranasctions =
      (InMemoryTransactionEngine.new.run [Transaction.Deposit 1 1 1]).tranasctions ∧
    ((InMemoryTransactionEngine.new.run [Transaction.Deposit 1 1 1]).add_transaction
        (Transaction.Reslove 1 1)).1.clients =
      (InMemoryTransactionEngine.new.run [Transaction.Deposit 1 1 1]).clients := by
  have h := c8_reject_restores
    (InMemoryTransactionEngine.new.run [Transaction.Deposit 1 1 1]) 1 1
    (Transaction.Reslove 1 1)
  have h1 := h.1 (Transaction.Deposit 1 1 1) (by decide) (by rfl) (Or.inl rfl)
  have h2 := h.2 (Or.inr (Or.inl rfl)) h1.1
  exact ⟨h1.1, h1.2, h2.1⟩

/-- C9: a Dispute (resp. Resolve/Chargeback) whose referenced stored record
belongs to a different client is not rejected for the mismatch: the balance
effect, computed from the stored record's amount, is applied to the account
named by the reference record, and the other client's stored transaction is
re-tagged (resp. finalized). -/
theorem c9_client_mismatch :
    (∀ (e : InMemoryTransactionEngine) (cid tid : Nat) (c : Client) (w d : Transaction)
        (A : Rat), e.clients cid = some c → c.locked = false →
        e.tranasctions tid = some w → w.make_disputed_transaction = .ok (d, A) →
        w.client_id ≠ cid →
        (e.add_transaction (.Dispute cid tid)).2 = true ∧
        (e.add_transaction (.Dispute cid tid)).1.clients cid =
          some (c.apply_transaction (.Dispute cid tid) A).1 ∧
        (e.add_transaction (.Dispute cid tid)).1.tranasctions tid = some d) ∧
    (∀ (e : InMemoryTransactionEngine) (cid tid : Nat) (c : Client) (w u : Transaction)
        (A : Rat) (t : Transaction),
        (t = Transaction.Reslove cid tid ∨ t = Transaction.Chargeback cid tid) →
        e.clients cid = some c → c.locked = false →
        e.tranasctions tid = some w → w.is_disputed = true →
        w.get_disputed_transaction = .ok (u, A) → w.client_id ≠ cid →
        (e.add_transaction t).2 = true ∧
        (e.add_transaction t).1.clients cid = some (c.apply_transaction t A).1 ∧
        (e.add_transaction t).1.tranasctions tid = none ∧
        (e.add_transaction t).1.finalized_transactions =
          e.finalized_transactions ++ [u]) := by
  constructor
  · intro e cid tid c w d A h1 h2 h3 h4 _hne
    simp only [InMemoryTransactionEngine.add_transaction, Transaction.client_id,
      e.client_locked_eq_false cid c h1 h2, Bool.false_eq_true, if_false, h1, h3, h4]
    exact ⟨by simp, by simp, by simp⟩
  · rintro e cid tid c w u A t (rfl | rfl) h1 h2 h3 h4 h5 _hne <;>
    · simp only [InMemoryTransactionEngine.add_transaction, Transaction.client_id,
        e.client_locked_eq_false cid c h1 h2, Bool.false_eq_true, if_false, h1, h3, h4,
        if_true, h5]
      exact ⟨by simp, by simp, by simp, by simp⟩

/-- C9 witness: client 2 disputes client 1's deposit (tx 5, amount 3); the
effect lands on client 2's account and tx 5 is re-tagged; then a Resolve by
client 2 on the disputed tx 5 finalizes it and credits client 2. -/
theorem c9_client_mismatch_witness :
    (((InMemoryTransactionEngine.new.run
        [Transaction.Deposit 1 5 3, Transaction.Deposit 2 6 0]).add_transaction
          (Transaction.Dispute 2 5)).2 = true ∧
     ((InMemoryTransactionEngine.new.run
        [Transaction.Deposit 1 5 3, Transaction.Deposit 2 6 0]).add_transaction
          (Transaction.Dispute 2 5)).1.clients 2 =
        some { id := 2, available := -3, held := 3, locked := false } ∧
     ((InMemoryTransactionEngine.new.run
        [Transaction.Deposit 1 5 3, Transaction.Deposit 2 6 0]).add_transaction
          (Transaction.Dispute 2 5)).1.tranasctions 5 =
        some (Transaction.DisputedDeposit 1 5 3)) ∧
    (((InMemoryTransactionEngine.new.run
        [Transaction.Deposit 1 5 3, Transaction.Deposit 2 6 0,
         Transaction.Dispute 1 5]).add_transaction (Transaction.Reslove 2 5)).2 = true ∧
     ((InMemoryTransactionEngine.new.run
        [Transaction.Deposit 1 5 3, Transaction.Deposit 2 6 0,
         Transaction.Dispute 1 5]).add_transaction (Transaction.Reslove 2 5)).1.tranasctions 5 =
        none ∧
     ((InMemoryTransactionEngine.new.run
        [Transaction.Deposit 1 5 3, Transaction.Deposit 2 6 0,
         Transaction.Dispute 1 5]).add_transaction (Transaction.Reslove 2 5)).1.clients 2 =
        some { id := 2, available := 3, held := 3, locked := false }) := by
  have hd := c9_client_mismatch.1
    (InMemoryTransactionEngine.new.run
      [Transaction.Deposit 1 5 3, Transaction.Deposit 2 6 0])
    2 5 { id := 2, available := 0, held := 0, locked := false }
    (Transaction.Deposit 1 5 3) (Transaction.DisputedDeposit 1 5 3) 3
    (by decide) (by decide) (by decide) (by rfl) (by decide)
  have hr := c9_client_mismatch.2
    (InMemoryTransactionEngine.new.run
      [Transaction.Deposit 1 5 3, Transaction.Deposit 2 6 0, Transaction.Dispute 1 5])
    2 5 { id := 2, available := 0, held := 0, locked := false }
    (Transaction.DisputedDeposit 1 5 3) (Transaction.Deposit 1 5 3) 3
    (Transaction.Reslove 2 5) (Or.inl rfl)
    (by decide) (by decide) (by decide) (by rfl) (by rfl) (by decide)
  refine ⟨⟨hd.1, ?_, hd.2.2⟩, hr.1, hr.2.2.1, ?_⟩
  · rw [hd.2.1]
    decide
  · rw [hr.2.1]
    decide

/-- C10: a Withdrawal for a previously-unseen client is rejected when its
amount exceeds the new account's zero balance, yet the fresh account
(available 0, held 0, unlocked) is stored and survives into every later
snapshot. -/
theorem c10_withdrawal_creates_account (e : InMemoryTransactionEngine) (cid tid : Nat)
    (A : Rat) (h1 : e.clients cid = none) (h2 : 0 < A) :
    (e.add_transaction (.Withdrawal cid tid A)).2 = false ∧
    (e.add_transaction (.Withdrawal cid tid A)).1.clients cid = some (Client.new cid) ∧
    (∀ l, (((e.add_transaction (.Withdrawal cid tid A)).1.run l).snap_shot_clients
      cid).isSome) := by
  have happ : (Client.new cid).apply_transaction (Transaction.Withdrawal cid tid A) A =
      (Client.new cid, false) := by
    simp [Client.apply_transaction, Client.new, not_le.mpr h2]
  simp only [InMemoryTransactionEngine.add_transaction, Transaction.client_id,
    InMemoryTransactionEngine.client_locked_none e cid h1, Bool.false_eq_true, if_false,
    h1, happ]
  refine ⟨by simp, by simp, fun l => ?_⟩
  simp only [InMemoryTransactionEngine.snap_shot_clients]
  apply InMemoryTransactionEngine.run_clients_isSome
  simp

/-- C10 witness: a withdrawal of 2 for unseen client 7 is rejected; the fresh
account is stored and is still in the snapshot after an unrelated deposit. -/
theorem c10_withdrawal_creates_account_witness :
    ((InMemoryTransactionEngine.new.add_transaction (Transaction.Withdrawal 7 1 2)).2 =
      false) ∧
    ((InMemoryTransactionEngine.new.add_transaction
        (Transaction.Withdrawal 7 1 2)).1.clients 7 = some (Client.new 7)) ∧
    ((((InMemoryTransactionEngine.new.add_transaction (Transaction.Withdrawal 7 1 2)).1.run
        [Transaction.Deposit 8 2 1]).snap_shot_clients 7).isSome) := by
  have h := c10_withdrawal_creates_account InMemoryTransactionEngine.new 7 1 2
    (by rfl) (by decide)
  exact ⟨h.1, h.2.1, h.2.2 [Transaction.Deposit 8 2 1]⟩

end PaymentEngine
